import Mathlib

/-!
# Verification of the Higress RAG pipeline (Go) against its specification

Shallow embedding of the RAG MCP-server plugin:
fusion strategies (`fusion/rrf.go`, `fusion/strategy.go`), the HTTP client
circuit breaker (`common/httpx/httpx.go`), profile normalization
(`profile/provider.go`), gating (`gating/provider.go`), feedback trends
(`feedback/manager.go`), configuration validation (`config/validate.go`),
cache-key construction (`rag_client.go`) and truncate compression
(`post/compress.go`).

Modelling conventions:
* Go `float64` scores, thresholds and ratios are modelled as `ℚ`; all the
  verified properties depend only on field arithmetic and comparisons.
* Go `int` is modelled as `ℤ`.
* Go maps used with insertion-then-update are modelled as association lists
  in insertion order; where the Go code *iterates* a map (whose order the Go
  runtime deliberately randomizes) the result is modelled relationally, as
  any enumeration of the map entries.
* Effectful pieces (logging, metrics recording, real I/O) are elided; the
  HTTP upstream and the vector retriever are passed in as explicit functions,
  and wall-clock time is passed as an explicit parameter.
-/

namespace RagSpec

/-! ## Go `strings` helpers (ASCII fragment used by the code under proof) -/

/-- Whitespace test used by `strings.TrimSpace` / `strings.Fields`
(`unicode.IsSpace` restricted to the ASCII range, which covers every string
these claims evaluate). -/
def isSpaceChar (c : Char) : Bool :=
  c = ' ' || c = '\t' || c = '\n' || c = '\x0d' || c = Char.ofNat 11 || c = Char.ofNat 12

/-- `strings.TrimSpace`: drop leading and trailing whitespace. -/
def trimSpace (s : String) : String :=
  ⟨((s.data.dropWhile isSpaceChar).reverse.dropWhile isSpaceChar).reverse⟩

/-- `unicode.ToLower` on the ASCII range. -/
def lowerChar (c : Char) : Char :=
  if 'A' ≤ c && c ≤ 'Z' then Char.ofNat (c.toNat + 32) else c

/-- `strings.ToLower` (ASCII fragment). -/
def toLowerStr (s : String) : String := ⟨s.data.map lowerChar⟩

/-- `strings.Contains(s, sub)`: substring test. -/
def goContains (s sub : String) : Bool := decide (sub.data <:+: s.data)

/-- `strings.Fields`: split around runs of whitespace, no empty fields. -/
def goFields (s : String) : List String :=
  ((s.data.splitOnP (isSpaceChar ·)).filter (· ≠ [])).map String.mk

/-- Join a list of strings with a separator (`strings.Join`). -/
def goJoin (sep : String) : List String → String
  | [] => ""
  | [x] => x
  | x :: xs => x ++ sep ++ goJoin sep xs

/-! ## Decimal rendering (`fmt` `%d` / `strconv.Itoa`) -/

/-- The ASCII character of a decimal digit. -/
def digitChar (d : Nat) : Char := Char.ofNat (48 + d)

/-- Inverse of `digitChar` on digits. -/
def charDigit (c : Char) : Nat := c.toNat - 48

/-- Decimal rendering of a natural number, most significant digit first
(the behaviour of `%d` on non-negative values). -/
def natDec (n : Nat) : String :=
  if n = 0 then "0" else String.mk (((Nat.digits 10 n).reverse).map digitChar)

/-- Decimal rendering of a Go `int` (`%d`, `strconv.Itoa`). -/
def intDec (i : Int) : String :=
  if i < 0 then "-" ++ natDec (-i).toNat else natDec i.toNat

/-! ## Shared schema types (`schema/document.go`) -/

/-- `schema.Document`.  `Metadata` is `map[string]any` in Go; the fusion code
only ever stores string values in it, so it is modelled as an association
list of strings in insertion order. -/
structure Document where
  id : String
  content : String
  metadata : List (String × String)
  deriving Repr, DecidableEq

/-- `schema.SearchResult`: a document with a fused/retrieval score. -/
structure SearchResult where
  document : Document
  score : ℚ
  deriving Repr, DecidableEq

/-! ## Retrieval profiles (`config/pipeline.go`) -/

/-- `config.RetrievalProfile` (the fields exercised by the claims). -/
structure RetrievalProfile where
  name : String := ""
  intent : String := ""
  retrievers : List String := []
  topK : Int := 0
  threshold : ℚ := 0
  perRetrieverTopK : Int := 0
  maxFanout : Int := 0
  useWeb : Bool := false
  vectorGate : ℚ := 0
  vectorLowGate : ℚ := 0
  forceWebOnLow : Bool := false
  variantBudgets : List (String × Int) := []
  deriving Repr, DecidableEq

/-- `profile/provider.go` `defaultProvider.Normalize`: fill in default values
for a profile. -/
def Normalize (prof : RetrievalProfile) : RetrievalProfile :=
  let prof := if prof.topK = 0 then { prof with topK := 10 } else prof
  let prof := if prof.threshold = 0 then { prof with threshold := 1/2 } else prof
  let prof := if prof.retrievers = [] then { prof with retrievers := ["vector"] } else prof
  let prof := if prof.perRetrieverTopK = 0 then { prof with perRetrieverTopK := prof.topK } else prof
  prof

/-! ## Fusion strategies (`fusion/rrf.go`, `fusion/strategy.go`)

The Go accumulation loops key a `map[string]*agg` by document id; the map
contents are deterministic and are modelled as an association list in
first-encounter (insertion) order.  The final `sort.Slice` call iterates the
map in runtime-randomized order and sorts unstably, so the emitted slice is
modelled relationally as any permutation of the aggregated entries that is
sorted by score in decreasing order (`FuseAdmissible`). -/

/-- `fusion.RetrieverResult`: one retriever's ranked list plus identity. -/
structure RetrieverResult where
  query : String := ""
  retriever : String := ""
  provider : String := ""
  results : List SearchResult := []
  deriving Repr, DecidableEq

/-- The per-document accumulator (`type agg struct` in the fusion loops). -/
structure Agg where
  doc : Document
  score : ℚ
  count : Nat
  deriving Repr, DecidableEq

/-- One iteration of a fusion accumulation loop: the document id, the
document value stored on first encounter, and the score increment. -/
structure Contribution where
  id : String
  doc : Document
  val : ℚ
  deriving Repr, DecidableEq

/-- The body of `scores[id]` read-modify-write: add `c.val` to the entry's
score and bump its count, inserting a fresh entry on first encounter. -/
def aggInsert (m : List (String × Agg)) (c : Contribution) : List (String × Agg) :=
  if (List.lookup c.id m).isSome then
    m.map (fun kv => if kv.1 = c.id then (kv.1, ⟨kv.2.doc, kv.2.score + c.val, kv.2.count + 1⟩) else kv)
  else m ++ [(c.id, ⟨c.doc, c.val, 1⟩)]

/-- A whole fusion accumulation loop: contributions with an empty document id
are skipped (`if id == "" { continue }`). -/
def aggregate (steps : List Contribution) : List (String × Agg) :=
  steps.foldl (fun m c => if c.id = "" then m else aggInsert m c) []

/-- `RRFScore` re-checks its `k` parameter: non-positive values fall back
to 60. -/
def rrfEffK (k : Int) : Int := if k ≤ 0 then 60 else k

/-- The contribution stream of `RRFScore`: each list item at zero-based index
`idx` contributes `1 / (k + rank)` with `rank = idx + 1`. -/
def rrfSteps (lists : List (List SearchResult)) (k : Int) : List Contribution :=
  lists.flatMap (fun list =>
    list.enum.map (fun p =>
      ⟨p.2.document.id, p.2.document, 1 / ((rrfEffK k : ℚ) + ((p.1 : ℚ) + 1))⟩))

/-- `fusion/rrf.go` `RRFScore`, up to the final randomized-order sort: the
aggregated entries in insertion order. -/
def rrfScoreEntries (lists : List (List SearchResult)) (k : Int) : List SearchResult :=
  (aggregate (rrfSteps lists k)).map (fun kv => ⟨kv.2.doc, kv.2.score⟩)

/-- `RRFStrategy.Fuse`: empty result lists are dropped, and a positive `k`
from the call parameters overrides the configured one (`lookupInt` yields 0
when the parameter is absent or unparsable). -/
def rrfFuseEntries (cfgK paramK : Int) (inputs : List RetrieverResult) : List SearchResult :=
  rrfScoreEntries ((inputs.map (·.results)).filter (· ≠ [])) (if paramK > 0 then paramK else cfgK)

/-- `compoundKey`: join the non-empty parts with `":"`. -/
def compoundKey (parts : List String) : String :=
  goJoin ":" (parts.filter (· ≠ ""))

/-- `indexKey idx = "list_<idx>"`. -/
def indexKey (idx : Nat) : String := "list_" ++ natDec idx

/-- The weight chosen for input `idx` by `WeightedStrategy.Fuse`:
`weights[in.Retriever]` if present; otherwise, when the compound
`retriever:provider` key is non-empty, `weights[compoundKey]` or the default
1.0; the `list_<idx>` key is consulted only when the compound key is empty
(i.e. retriever and provider are both empty), mirroring the `else if` chain
in the source. -/
def weightFor (weights : List (String × ℚ)) (idx : Nat) (inp : RetrieverResult) : ℚ :=
  match List.lookup inp.retriever weights with
  | some w => w
  | none =>
    if compoundKey [inp.retriever, inp.provider] ≠ "" then
      match List.lookup (compoundKey [inp.retriever, inp.provider]) weights with
      | some w => w
      | none => 1
    else
      match List.lookup (indexKey idx) weights with
      | some w => w
      | none => 1

/-- `doc.Metadata[k] = v` on the insertion-ordered metadata model. -/
def metaSet (m : List (String × String)) (k v : String) : List (String × String) :=
  if (List.lookup k m).isSome then
    m.map (fun kv => if kv.1 = k then (kv.1, v) else kv)
  else m ++ [(k, v)]

/-- The metadata stamping `WeightedStrategy.Fuse` performs on each document:
`retriever_type` always, `retriever_provider` when the provider is set. -/
def withRetrieverMeta (doc : Document) (inp : RetrieverResult) : Document :=
  let md := metaSet doc.metadata "retriever_type" inp.retriever
  let md := if inp.provider ≠ "" then metaSet md "retriever_provider" inp.provider else md
  { doc with metadata := md }

/-- The metadata stamping of `LinearCombinationStrategy.Fuse`
(`retriever_type` only). -/
def withTypeMeta (doc : Document) (inp : RetrieverResult) : Document :=
  { doc with metadata := metaSet doc.metadata "retriever_type" inp.retriever }

/-- The contribution stream of `WeightedStrategy.Fuse`: inputs with no
results are skipped (their index still advances), each item contributes
`item.Score * weight`. -/
def weightedSteps (weights : List (String × ℚ)) (inputs : List RetrieverResult) : List Contribution :=
  inputs.enum.flatMap (fun p =>
    if p.2.results = [] then []
    else
      (p.2.results.map (fun item =>
        ⟨item.document.id, withRetrieverMeta item.document p.2,
          item.score * weightFor weights p.1 p.2⟩)))

/-- `WeightedStrategy.Fuse` up to the final randomized-order sort: aggregated
entries, each score divided by its contribution count (the mean). -/
def weightedFuseEntries (weights : List (String × ℚ)) (inputs : List RetrieverResult) :
    List SearchResult :=
  (aggregate (weightedSteps weights inputs)).map (fun kv =>
    ⟨kv.2.doc, if 0 < kv.2.count then kv.2.score / (kv.2.count : ℚ) else kv.2.score⟩)

/-- Merging of configured weights with per-call parameter weights
(`weights[k] = v` for each parsed parameter entry). -/
def mergeWeights (cfg : List (String × ℚ)) (params : Option (List (String × ℚ))) :
    List (String × ℚ) :=
  match params with
  | none => cfg
  | some ps => ps.foldl (fun acc kv =>
      if (List.lookup kv.1 acc).isSome then
        acc.map (fun e => if e.1 = kv.1 then (e.1, kv.2) else e)
      else acc ++ [kv]) cfg

/-- The contribution stream of `LinearCombinationStrategy.Fuse`: the weight
vector is normalized by its total (a zero total is replaced by 1), indices
beyond the vector get raw weight 1.0, and every weight is divided by the
total. -/
def linearSteps (weights : List ℚ) (inputs : List RetrieverResult) : List Contribution :=
  let total0 := weights.sum
  let total := if total0 = 0 then 1 else total0
  inputs.enum.flatMap (fun p =>
    if p.2.results = [] then []
    else
      (p.2.results.map (fun item =>
        ⟨item.document.id, withTypeMeta item.document p.2,
          item.score * (weights.getD p.1 1 / total)⟩)))

/-- `LinearCombinationStrategy.Fuse` up to the final randomized-order sort. -/
def linearFuseEntries (weights : List ℚ) (inputs : List RetrieverResult) : List SearchResult :=
  (aggregate (linearSteps weights inputs)).map (fun kv => ⟨kv.2.doc, kv.2.score⟩)

/-- Min-max normalization of one result list performed by
`DistributionBasedStrategy.Fuse`: scores are rescaled to `[0,1]`; a constant
list collapses to all-1.0 scores. -/
def normalizeScores (l : List SearchResult) : List SearchResult :=
  match l with
  | [] => []
  | first :: _ =>
    let minScore := (l.map (·.score)).foldl min first.score
    let maxScore := (l.map (·.score)).foldl max first.score
    let rng := maxScore - minScore
    l.map (fun item =>
      if 0 < rng then { item with score := (item.score - minScore) / rng }
      else { item with score := 1 })

/-- The input transformation of `DistributionBasedStrategy.Fuse`: drop empty
inputs and normalize the remaining ones. -/
def distNormalize (inputs : List RetrieverResult) : List RetrieverResult :=
  (inputs.filter (·.results ≠ [])).map (fun inp =>
    { inp with results := normalizeScores inp.results })

/-- The four fusion strategies; `dist` wraps a base strategy.  Parameter
overrides are carried after parsing (`lookupInt` / `parseStringFloatMap` /
`parseFloatSlice` type switches on `any` are outside the embedding). -/
inductive FusionKind where
  | rrf (cfgK paramK : Int)
  | weighted (weights : List (String × ℚ))
  | linear (weights : List ℚ)
  | dist (base : FusionKind)
  deriving Repr, DecidableEq

/-- The aggregated entries of each strategy's `Fuse`, in insertion order
(everything the Go code computes before the final randomized-order
`sort.Slice`). -/
def fusedEntries : FusionKind → List RetrieverResult → List SearchResult
  | .rrf cfgK paramK, inputs => rrfFuseEntries cfgK paramK inputs
  | .weighted w, inputs => weightedFuseEntries w inputs
  | .linear w, inputs => linearFuseEntries w inputs
  | .dist base, inputs => fusedEntries base (distNormalize inputs)

/-- The score increments contributed to document `id` by a contribution
stream, in processing order. -/
def contribVals (steps : List Contribution) (id : String) : List ℚ :=
  (steps.filter (fun c => c.id = id)).map Contribution.val

/-- The weight-lookup rule the claim describes (modelled from the spec's
words): `weights[retriever]`, then `weights[retriever:provider]`, then
`weights[list_i]`, defaulting to 1.0. -/
def claimedWeightFor (weights : List (String × ℚ)) (idx : Nat) (inp : RetrieverResult) : ℚ :=
  match List.lookup inp.retriever weights with
  | some w => w
  | none =>
    match List.lookup (compoundKey [inp.retriever, inp.provider]) weights with
    | some w => w
    | none =>
      match List.lookup (indexKey idx) weights with
      | some w => w
      | none => 1

/-- `WeightedStrategy.Fuse` as the claim describes it: identical to the
source embedding except that weights follow `claimedWeightFor`. -/
def claimedWeightedEntries (weights : List (String × ℚ)) (inputs : List RetrieverResult) :
    List SearchResult :=
  (aggregate (inputs.enum.flatMap (fun p =>
    if p.2.results = [] then []
    else
      (p.2.results.map (fun item =>
        ⟨item.document.id, withRetrieverMeta item.document p.2,
          item.score * claimedWeightFor weights p.1 p.2⟩))))).map (fun kv =>
    ⟨kv.2.doc, if 0 < kv.2.count then kv.2.score / (kv.2.count : ℚ) else kv.2.score⟩)

/-- Sorted by fused score in decreasing order. -/
def SortedDesc (out : List SearchResult) : Prop :=
  out.Pairwise (fun a b => b.score ≤ a.score)

/-- The possible outputs of `Fuse`: Go map iteration order is unspecified and
`sort.Slice` is unstable, so a slice is an admissible result exactly when it
is a permutation of the aggregated entries that is sorted by score
descending. -/
def FuseAdmissible (kind : FusionKind) (inputs : List RetrieverResult)
    (out : List SearchResult) : Prop :=
  out.Perm (fusedEntries kind inputs) ∧ SortedDesc out

/-- The tie-breaking discipline asserted by the spec: entries with equal
fused scores appear in first-encounter (insertion) order, i.e. ordered by
their document id's position in the insertion-ordered entry list. -/
def InsertionTieOrder (entries out : List SearchResult) : Prop :=
  out.Pairwise (fun a b => a.score = b.score →
    List.indexOf a.document.id (entries.map (fun rr => rr.document.id)) <
      List.indexOf b.document.id (entries.map (fun rr => rr.document.id)))

/-! ## HTTP client with retry and circuit breaker (`common/httpx/httpx.go`)

`Client.Do` is modelled as a pure state transition for the scenario the claim
fixes: an upstream that answers status 500 on every attempt (500 is outside
the success window `[200, 500)`, so every attempt fails and the retry loop
runs to exhaustion).  Wall-clock time is explicit: `nowStart` is the
`time.Now()` at the circuit check, `nowEnd` the `time.Now()` at which the
open deadline is computed after the attempts and backoff sleeps. -/

/-- The `httpx.Options` fields the circuit logic reads (durations in
nanoseconds, as Go's `time.Duration`). -/
structure HttpxOptions where
  retry : Int
  backoffMin : Int
  backoffMax : Int
  maxConsecutiveFail : Int
  circuitOpen : Int
  deriving Repr, DecidableEq

/-- The mutable client state: consecutive-failure counter and circuit-open
deadline (unix nanoseconds; a fresh client has both at 0). -/
structure HttpxState where
  fail : Int
  openUntil : Int
  deriving Repr, DecidableEq

/-- What a `Do` call did: fail fast on an open circuit, or perform its
attempt loop (returning the final 500 response). -/
inductive DoOutcome where
  | circuitOpen
  | attempted
  deriving Repr, DecidableEq

/-- `Client.Do` against an always-500 upstream.  The allowlist check is
vacuous (no allowlist configured in the claim's scenario).  On an open
circuit (`openUntil > now`) the call returns `ErrCircuitOpen` without I/O;
otherwise all `retry+1` attempts fail, the failure counter is incremented
once, and on reaching the threshold the circuit opens until
`nowEnd + circuitOpen` and the counter resets. -/
def httpxDoAllFail (opt : HttpxOptions) (st : HttpxState) (nowStart nowEnd : Int) :
    DoOutcome × HttpxState :=
  if st.openUntil > nowStart then (.circuitOpen, st)
  else if st.fail + 1 ≥ opt.maxConsecutiveFail then
    (.attempted, ⟨0, nowEnd + opt.circuitOpen⟩)
  else
    (.attempted, ⟨st.fail + 1, st.openUntil⟩)

/-- Run a sequence of `Do` calls, each given as `(nowStart, nowEnd)`. -/
def httpxRun (opt : HttpxOptions) (st : HttpxState) (calls : List (Int × Int)) : HttpxState :=
  calls.foldl (fun s c => (httpxDoAllFail opt s c.1 c.2).2) st

/-- The scenario S5 configuration: `retry=2, backoff_min=1ms, backoff_max=2ms,
max_consecutive_failures=3, circuit_open_seconds=1`. -/
def s5Options : HttpxOptions :=
  ⟨2, 1000000, 2000000, 3, 1000000000⟩

/-! ## Feedback manager (`feedback/manager.go`) -/

/-- `crag.Verdict` is a Go `int`; the named constants. -/
def verdictCorrect : Int := 0

/-- `crag.VerdictAmbiguous`. -/
def verdictAmbiguous : Int := 1

/-- `crag.VerdictIncorrect`. -/
def verdictIncorrect : Int := 2

/-- `feedback.VerdictRecord` (timestamps in unix nanoseconds). -/
structure VerdictRecord where
  timestamp : Int
  verdict : Int
  confidence : ℚ
  deriving Repr, DecidableEq

/-- `feedback.Trend` (the counter fields are non-negative Go ints). -/
structure Trend where
  total : Nat := 0
  incorrect : Nat := 0
  ambiguous : Nat := 0
  confident : Nat := 0
  consecutiveIncorrect : Nat := 0
  consecutiveAmbiguous : Nat := 0
  consecutiveConfident : Nat := 0
  lastVerdicts : List Int := []
  lastUpdated : Int := 0
  deriving Repr, DecidableEq

/-- `feedback.Manager` per-key state (the mutex is irrelevant to the
single-threaded semantics; `maxPerKey` only bounds `Record`, not
`GetTrend`).  `lastAdjust` maps keys to adjustment times; an absent key is
Go's zero time (`IsZero`). -/
structure FeedbackManager where
  cfgWindow : Int := 0
  history : List (String × List VerdictRecord) := []
  lastAdjust : List (String × Int) := []
  deriving Repr, DecidableEq

/-- One iteration of the backwards loop in `GetTrend` over the consecutive
counters `(incorrect, ambiguous, confident)`: the matching counter is
incremented, the other two reset; an unknown verdict resets all three. -/
def trendStep (acc : Nat × Nat × Nat) (v : Int) : Nat × Nat × Nat :=
  if v = verdictIncorrect then (acc.1 + 1, 0, 0)
  else if v = verdictAmbiguous then (0, acc.2.1 + 1, 0)
  else if v = verdictCorrect then (0, 0, acc.2.2 + 1)
  else (0, 0, 0)

/-- The window truncation in `GetTrend`: keep the last `window` records. -/
def lastWindow (window : Int) (history : List VerdictRecord) : List VerdictRecord :=
  if (history.length : Int) > window then
    history.drop (history.length - window.toNat)
  else history

/-- `Manager.GetTrend`: resolve the key (`""` → `"_global"`), default the
window (non-positive → configured window → 5), truncate to the last `window`
records, then walk the records backwards (newest first) accumulating totals
and the consecutive counters. -/
def getTrend (m : FeedbackManager) (key : String) (window : Int) : Trend :=
  let key := if key = "" then "_global" else key
  let history := (List.lookup key m.history).getD []
  let window := if window ≤ 0 then (if m.cfgWindow ≤ 0 then 5 else m.cfgWindow) else window
  if history = [] then {}
  else
    let hist := lastWindow window history
    let consec := (hist.reverse.map (·.verdict)).foldl trendStep (0, 0, 0)
    { total := hist.length
      incorrect := hist.countP (fun r => r.verdict = verdictIncorrect)
      ambiguous := hist.countP (fun r => r.verdict = verdictAmbiguous)
      confident := hist.countP (fun r => r.verdict = verdictCorrect)
      consecutiveIncorrect := consec.1
      consecutiveAmbiguous := consec.2.1
      consecutiveConfident := consec.2.2
      lastVerdicts := hist.map (·.verdict)
      lastUpdated := ((hist.getLast?).map (·.timestamp)).getD 0 }

/-- The consecutive count the claim describes (modelled from the spec's
words): walk backwards from the newest of the last `window` records and count
records with verdict `v` until a record with any other verdict breaks the
run. -/
def claimedConsecutive (v : Int) (window : Int) (history : List VerdictRecord) : Nat :=
  (((lastWindow window history).reverse).takeWhile (fun r => r.verdict = v)).length

/-- `Manager.InCooldown`: a non-positive cooldown never blocks, an absent
adjustment time (Go zero time) never blocks, otherwise the adjustment must be
older than `cooldown` (times and durations in nanoseconds). -/
def inCooldown (m : FeedbackManager) (key : String) (cooldown : Int) (now : Int) : Bool :=
  if cooldown ≤ 0 then false
  else
    let key := if key = "" then "_global" else key
    match List.lookup key m.lastAdjust with
    | none => false
    | some last => now - last < cooldown

/-! ## Feedback configuration (`config/pipeline.go`) -/

/-- `config.FeedbackThresholds`. -/
structure FeedbackThresholds where
  incorrect : Int := 0
  ambiguous : Int := 0
  confident : Int := 0
  deriving Repr, DecidableEq

/-- `config.FeedbackAdjustments`. -/
structure FeedbackAdjustments where
  topKStep : Int := 0
  topKMax : Int := 0
  enableForceWebOnLow : Bool := false
  deriving Repr, DecidableEq

/-- `config.FeedbackConfig`. -/
structure FeedbackConfig where
  window : Int := 0
  thresholds : FeedbackThresholds := {}
  adjustments : FeedbackAdjustments := {}
  cooldownSec : Int := 0
  deriving Repr, DecidableEq

/-! ## Gating (`gating/provider.go`) -/

/-- The decision reasons built by `Evaluate`.  In Go these are strings; the
formatted ones embed `%.4f`-rendered scores, modelled as constructor
payloads (the rendering itself is irrelevant to the claims). -/
inductive GateReason where
  | noVectorRetriever
  | gatingDisabled
  | preflightFailed
  | suppressWeb (topScore gate : ℚ)
  | forceWeb (topScore lowGate : ℚ)
  | lowScoreNoForce (topScore lowGate : ℚ)
  | neutral (topScore : ℚ)
  deriving Repr, DecidableEq

/-- `gating.Decision`; `reason = none` models the empty reason string. -/
structure Decision where
  shouldSuppressWeb : Bool := false
  shouldForceWeb : Bool := false
  topScore : ℚ := 0
  reason : Option GateReason := none
  deriving Repr, DecidableEq

/-- `containsRetriever`: some configured retriever key contains `typ` as a
case-insensitive substring. -/
def containsRetriever (retrievers : List String) (typ : String) : Bool :=
  retrievers.any (fun r => goContains (toLowerStr r) (toLowerStr typ))

/-- `filterRetrievers`: drop every key containing `typ` as a
case-insensitive substring. -/
def filterRetrievers (retrievers : List String) (typ : String) : List String :=
  retrievers.filter (fun r => !(goContains (toLowerStr r) (toLowerStr typ)))

/-- A vector retriever's `Search`, as a function from query and requested
document count to an error or a ranked result list. -/
abbrev SearchFn : Type := String → Int → Except Unit (List SearchResult)

/-- `defaultProvider.Evaluate` (metrics recording and logging elided): a nil
retriever and disabled gates short-circuit; otherwise a preflight vector
search for 5 documents is issued, failing or empty preflights yield
`preflight_failed`, and the suppress/force branches compare the top score
against the gates exactly as the source does. -/
def gateEvaluate (search : Option SearchFn) (query : String) (profile : RetrievalProfile) :
    Decision :=
  match search with
  | none => { reason := some .noVectorRetriever }
  | some s =>
    if profile.vectorGate ≤ 0 ∧ profile.vectorLowGate ≤ 0 then
      { reason := some .gatingDisabled }
    else
      match s query 5 with
      | .error _ => { reason := some .preflightFailed }
      | .ok [] => { reason := some .preflightFailed }
      | .ok (top :: _) =>
        let ts := top.score
        let d : Decision := { topScore := ts }
        let d :=
          if 0 < profile.vectorGate ∧ profile.vectorGate ≤ ts then
            if profile.useWeb ∨ containsRetriever profile.retrievers "web" then
              { d with shouldSuppressWeb := true,
                       reason := some (.suppressWeb ts profile.vectorGate) }
            else d
          else d
        let d :=
          if 0 < profile.vectorLowGate ∧ ts < profile.vectorLowGate then
            if profile.forceWebOnLow then
              if ¬profile.useWeb ∧ ¬containsRetriever profile.retrievers "web" then
                { d with shouldForceWeb := true,
                         reason := some (.forceWeb ts profile.vectorLowGate) }
              else d
            else { d with reason := some (.lowScoreNoForce ts profile.vectorLowGate) }
          else d
        if d.reason = none then { d with reason := some (.neutral ts) } else d

/-- `minInt` from `orchestrator/orchestrator.go`. -/
def minInt (a b : Int) : Int := if a < b then a else b

/-- The evaluation the claim describes (modelled from the spec's words):
identical to `gateEvaluate` except that the preflight requests
`min(5, profile.top_k)` documents. -/
def gateEvaluateClaim (search : Option SearchFn) (query : String)
    (profile : RetrievalProfile) : Decision :=
  match search with
  | none => { reason := some .noVectorRetriever }
  | some s =>
    if profile.vectorGate ≤ 0 ∧ profile.vectorLowGate ≤ 0 then
      { reason := some .gatingDisabled }
    else
      match s query (minInt 5 profile.topK) with
      | .error _ => { reason := some .preflightFailed }
      | .ok [] => { reason := some .preflightFailed }
      | .ok (top :: _) =>
        let ts := top.score
        let d : Decision := { topScore := ts }
        let d :=
          if 0 < profile.vectorGate ∧ profile.vectorGate ≤ ts then
            if profile.useWeb ∨ containsRetriever profile.retrievers "web" then
              { d with shouldSuppressWeb := true,
                       reason := some (.suppressWeb ts profile.vectorGate) }
            else d
          else d
        let d :=
          if 0 < profile.vectorLowGate ∧ ts < profile.vectorLowGate then
            if profile.forceWebOnLow then
              if ¬profile.useWeb ∧ ¬containsRetriever profile.retrievers "web" then
                { d with shouldForceWeb := true,
                         reason := some (.forceWeb ts profile.vectorLowGate) }
              else d
            else { d with reason := some (.lowScoreNoForce ts profile.vectorLowGate) }
          else d
        if d.reason = none then { d with reason := some (.neutral ts) } else d

/-- `defaultProvider.applyFeedbackAdjustments` (the `MarkAdjustment` write is
a state update on the manager and does not affect the returned profile).
`feedback` carries the wired manager and configuration; `none` models a
provider without `WithFeedback`. -/
def applyFeedbackAdjustments (feedback : Option (FeedbackManager × FeedbackConfig))
    (now : Int) (profile : RetrievalProfile) : RetrievalProfile :=
  match feedback with
  | none => profile
  | some (mgr, cfg) =>
    let key := if profile.name = "" then "default" else profile.name
    let cooldown := cfg.cooldownSec * 1000000000
    if inCooldown mgr key cooldown now then profile
    else
      let trend := getTrend mgr key cfg.window
      if trend.total = 0 then profile
      else
        let step := if cfg.adjustments.topKStep ≤ 0 then 2 else cfg.adjustments.topKStep
        let th := cfg.thresholds
        let incHit := 0 < th.incorrect ∧ th.incorrect ≤ (trend.consecutiveIncorrect : Int)
        let ambHit := 0 < th.ambiguous ∧ th.ambiguous ≤ (trend.consecutiveAmbiguous : Int)
        let confHit := 0 < th.confident ∧ th.confident ≤ (trend.consecutiveConfident : Int)
        let adjStep : RetrievalProfile × Bool :=
          if incHit then ({ profile with topK := profile.topK + step }, true)
          else if ambHit then ({ profile with topK := profile.topK + step }, true)
          else if confHit then
            if step < profile.topK then
              let k := profile.topK - step
              ({ profile with topK := if k < 3 then 3 else k }, true)
            else (profile, false)
          else (profile, false)
        let profile := adjStep.1
        if adjStep.2 then
          let profile :=
            if 0 < cfg.adjustments.topKMax ∧ cfg.adjustments.topKMax < profile.topK then
              { profile with topK := cfg.adjustments.topKMax }
            else profile
          let profile := if profile.topK ≤ 0 then { profile with topK := 1 } else profile
          let profile :=
            if profile.topK < profile.perRetrieverTopK ∨ profile.perRetrieverTopK = 0 then
              { profile with perRetrieverTopK := profile.topK }
            else profile
          if cfg.adjustments.enableForceWebOnLow ∧ (incHit ∨ ambHit) then
            let profile :=
              if ¬containsRetriever profile.retrievers "web" then
                { profile with retrievers := profile.retrievers ++ ["web"] }
              else profile
            { profile with useWeb := true }
          else profile
        else profile

/-- `defaultProvider.ApplyDecision`: suppression clears `UseWeb` and filters
`web`-containing retriever keys; forcing sets `UseWeb` and appends `"web"`
when absent; feedback adjustments run last. -/
def gateApplyDecision (feedback : Option (FeedbackManager × FeedbackConfig)) (now : Int)
    (decision : Decision) (profile : RetrievalProfile) : RetrievalProfile :=
  let profile :=
    if decision.shouldSuppressWeb then
      { profile with useWeb := false, retrievers := filterRetrievers profile.retrievers "web" }
    else profile
  let profile :=
    if decision.shouldForceWeb then
      let profile := { profile with useWeb := true }
      if ¬containsRetriever profile.retrievers "web" then
        { profile with retrievers := profile.retrievers ++ ["web"] }
      else profile
    else profile
  applyFeedbackAdjustments feedback now profile

/-! ## Configuration validation (`config/validate.go`, unnamed part_006) -/

/-- `config.EmbeddingConfig` (validated fields). -/
structure EmbeddingConfig where
  provider : String := ""
  model : String := ""
  dimensions : Int := 0
  deriving Repr, DecidableEq

/-- `config.VectorDBConfig` (validated fields). -/
structure VectorDBConfig where
  provider : String := ""
  host : String := ""
  collection : String := ""
  database : String := ""
  deriving Repr, DecidableEq

/-- `config.RAGConfig` (validated fields). -/
structure RAGSection where
  topK : Int := 0
  threshold : ℚ := 0
  deriving Repr, DecidableEq

/-- `config.RerankConfig` (validated fields). -/
structure RerankConfig where
  enable : Bool := false
  endpoint : String := ""
  topN : Int := 0
  deriving Repr, DecidableEq

/-- `config.CompressConfig` (validated fields). -/
structure CompressConfig where
  enable : Bool := false
  targetRatio : ℚ := 0
  deriving Repr, DecidableEq

/-- `config.PostConfig` (validated fields). -/
structure PostConfig where
  rerank : RerankConfig := {}
  compress : CompressConfig := {}
  deriving Repr, DecidableEq

/-- `config.CRAGEvaluatorConfig` (validated fields). -/
structure CragEvaluatorConfig where
  provider : String := ""
  endpoint : String := ""
  correct : ℚ := 0
  incorrect : ℚ := 0
  deriving Repr, DecidableEq

/-- `config.CRAGConfig` (validated fields). -/
structure CRAGConfig where
  evaluator : CragEvaluatorConfig := {}
  deriving Repr, DecidableEq

/-- `config.RetrieverConfig` (validated fields; `params` is a
`map[string]string`, indexing an absent key yields `""`). -/
structure RetrieverConfig where
  type : String := ""
  provider : String := ""
  params : List (String × String) := []
  deriving Repr, DecidableEq

/-- Go map indexing with the string zero value. -/
def paramsGet (params : List (String × String)) (k : String) : String :=
  (List.lookup k params).getD ""

/-- `config.PipelineConfig` (validated fields). -/
structure PipelineConfig where
  rrfK : Int := 0
  retrievalProfiles : List RetrievalProfile := []
  post : Option PostConfig := none
  crag : Option CRAGConfig := none
  enableCRAG : Bool := false
  retrievers : List RetrieverConfig := []
  deriving Repr, DecidableEq

/-- `config.Config` (validated fields). -/
structure Config where
  embedding : EmbeddingConfig := {}
  vectordb : VectorDBConfig := {}
  rag : RAGSection := {}
  pipeline : Option PipelineConfig := none
  deriving Repr, DecidableEq

/-- The validation errors `Validate` can emit, one constructor per
`ValidationError` site in the source (the formatted message strings are
elided; indexed constructors carry the offending element's index). -/
inductive VErr where
  | embeddingProviderRequired
  | embeddingModelRequired
  | embeddingDimensionsNonPositive
  | embeddingDimensionsAtypical
  | vectordbProviderRequired
  | vectordbHostRequired
  | vectordbCollectionRequired
  | vectordbDatabaseRequired
  | ragTopKNonPositive
  | ragTopKTooLarge
  | ragThresholdRange
  | rrfKNegative
  | profileNameRequired (i : Nat)
  | profileTopKNegative (i : Nat)
  | profileThresholdRange (i : Nat)
  | profileVectorGateRange (i : Nat)
  | profileVectorLowGateRange (i : Nat)
  | profileGateOrder (i : Nat)
  | rerankEndpointRequired
  | rerankTopNNegative
  | compressTargetRatioRange
  | cragEndpointRequired
  | cragCorrectRange
  | cragIncorrectRange
  | retrieverTypeRequired (i : Nat)
  | bm25EndpointRequired (i : Nat)
  | webEndpointOrProviderRequired (i : Nat)
  deriving Repr, DecidableEq

/-- `Config.validateEmbedding`. -/
def validateEmbedding (c : Config) : List VErr :=
  (if c.embedding.provider = "" then [VErr.embeddingProviderRequired] else [])
    ++ (if c.embedding.model = "" then [VErr.embeddingModelRequired] else [])
    ++ (if c.embedding.dimensions ≤ 0 then [VErr.embeddingDimensionsNonPositive] else [])
    ++ (if 0 < c.embedding.dimensions ∧
          (c.embedding.dimensions < 128 ∨ 4096 < c.embedding.dimensions) then
          [VErr.embeddingDimensionsAtypical] else [])

/-- `Config.validateVectorDB` (the provider switch compares lowercased). -/
def validateVectorDB (c : Config) : List VErr :=
  (if c.vectordb.provider = "" then [VErr.vectordbProviderRequired] else [])
    ++ (let p := toLowerStr c.vectordb.provider
        if p = "chroma" ∨ p = "milvus" ∨ p = "qdrant" then
          (if c.vectordb.host = "" then [VErr.vectordbHostRequired] else [])
            ++ (if c.vectordb.collection = "" then [VErr.vectordbCollectionRequired] else [])
        else if p = "sqlite" then
          (if c.vectordb.database = "" then [VErr.vectordbDatabaseRequired] else [])
        else [])

/-- `Config.validateRAG`. -/
def validateRAG (c : Config) : List VErr :=
  (if c.rag.topK ≤ 0 then [VErr.ragTopKNonPositive] else [])
    ++ (if 100 < c.rag.topK then [VErr.ragTopKTooLarge] else [])
    ++ (if c.rag.threshold < 0 ∨ 1 < c.rag.threshold then [VErr.ragThresholdRange] else [])

/-- The per-profile checks of `Config.validatePipeline` (at index `i`).
There is no uniqueness check on profile names. -/
def validateProfile (i : Nat) (prof : RetrievalProfile) : List VErr :=
  (if prof.name = "" then [VErr.profileNameRequired i] else [])
    ++ (if prof.topK < 0 then [VErr.profileTopKNegative i] else [])
    ++ (if prof.threshold < 0 ∨ 1 < prof.threshold then [VErr.profileThresholdRange i] else [])
    ++ (if prof.vectorGate < 0 ∨ 1 < prof.vectorGate then [VErr.profileVectorGateRange i] else [])
    ++ (if prof.vectorLowGate < 0 ∨ 1 < prof.vectorLowGate then
          [VErr.profileVectorLowGateRange i] else [])
    ++ (if 0 < prof.vectorGate ∧ 0 < prof.vectorLowGate ∧ prof.vectorGate ≤ prof.vectorLowGate then
          [VErr.profileGateOrder i] else [])

/-- The per-retriever checks of `Config.validatePipeline` (at index `i`). -/
def validateRetrieverCfg (i : Nat) (ret : RetrieverConfig) : List VErr :=
  (if ret.type = "" then [VErr.retrieverTypeRequired i] else [])
    ++ (if ret.type = "bm25" then
          (if paramsGet ret.params "endpoint" = "" then [VErr.bm25EndpointRequired i] else [])
        else if ret.type = "web" then
          (if paramsGet ret.params "endpoint" = "" ∧ ret.provider = "" then
            [VErr.webEndpointOrProviderRequired i] else [])
        else [])

/-- `Config.validatePipeline` (only called when a pipeline is present). -/
def validatePipeline (p : PipelineConfig) : List VErr :=
  (if p.rrfK < 0 then [VErr.rrfKNegative] else [])
    ++ (p.retrievalProfiles.enum.flatMap (fun q => validateProfile q.1 q.2))
    ++ (match p.post with
        | none => []
        | some post =>
          (if post.rerank.enable then
            (if post.rerank.endpoint = "" then [VErr.rerankEndpointRequired] else [])
              ++ (if post.rerank.topN < 0 then [VErr.rerankTopNNegative] else [])
          else [])
            ++ (if post.compress.enable then
                  (if post.compress.targetRatio < 0 ∨ 1 < post.compress.targetRatio then
                    [VErr.compressTargetRatioRange] else [])
                else []))
    ++ (match p.crag with
        | none => []
        | some cr =>
          if p.enableCRAG then
            (if cr.evaluator.provider = "http" ∧ cr.evaluator.endpoint = "" then
              [VErr.cragEndpointRequired] else [])
              ++ (if cr.evaluator.correct < 0 ∨ 1 < cr.evaluator.correct then
                    [VErr.cragCorrectRange] else [])
              ++ (if cr.evaluator.incorrect < 0 ∨ 1 < cr.evaluator.incorrect then
                    [VErr.cragIncorrectRange] else [])
          else [])
    ++ (p.retrievers.enum.flatMap (fun q => validateRetrieverCfg q.1 q.2))

/-- `Config.Validate`: concatenate the section errors; `none` models a nil
error (the configuration is accepted). -/
def configValidate (c : Config) : Option (List VErr) :=
  let errs := validateEmbedding c ++ validateVectorDB c ++ validateRAG c
    ++ (match c.pipeline with
        | none => []
        | some p => validatePipeline p)
  if errs = [] then none else some errs

/-! ## L1 cache key (`rag_client.go`) -/

/-- The `RAGClient` fields `buildCacheKey` reads. -/
structure RAGClientModel where
  indexVersion : String := ""
  cacheFusionVersion : String := ""
  config : Config := {}
  deriving Repr, DecidableEq

/-- `RAGClient.rerankTopN`: the configured positive `rerank.top_n`, else 0. -/
def rerankTopN (c : Config) : Int :=
  match c.pipeline with
  | some p =>
    match p.post with
    | some post => if 0 < post.rerank.topN then post.rerank.topN else 0
    | none => 0
  | none => 0

/-- `budgetsSignature`: `"-"` for an empty budgets map, otherwise a
`key=value;` join over the keys in sorted order (`sort.Strings`). -/
def budgetsSignature (budgets : List (String × Int)) : String :=
  if budgets = [] then "-"
  else
    let keys := (budgets.map Prod.fst).insertionSort (fun a b => a ≤ b)
    keys.foldl (fun acc k => acc ++ k ++ "=" ++ intDec ((List.lookup k budgets).getD 0) ++ ";") ""

/-- The SHA-1 preimage built by `RAGClient.buildCacheKey`; the returned cache
key is the SHA-1 hex digest of this string, so equal preimages yield equal
keys and (collisions of SHA-1 aside) distinct preimages distinct keys. -/
def buildCacheKeyBase (r : RAGClientModel) (query : String) (profile : RetrievalProfile) :
    String :=
  let normalized := toLowerStr (trimSpace query)
  normalized ++ "|" ++ profile.name ++ "|" ++ r.indexVersion ++ "|" ++ intDec profile.topK
    ++ "|" ++ intDec (rerankTopN r.config) ++ "|" ++ budgetsSignature profile.variantBudgets
    ++ "|" ++ r.cacheFusionVersion

/-! ## Truncate compression (`post/compress.go`) -/

/-- `post.CompressText`: out-of-range ratios and token-free texts pass
through; otherwise keep the first `int(len(tokens) * ratio)` tokens (at
least 1), returning the text unchanged when that many tokens is the whole
list.  Go's float-to-int conversion truncates toward zero, which on the
non-negative product is the floor. -/
def CompressText (text : String) (targetRatio : ℚ) : String :=
  if targetRatio ≤ 0 ∨ 1 ≤ targetRatio then text
  else
    let tokens := goFields text
    if tokens = [] then text
    else
      let keep0 : Int := Int.floor ((tokens.length : ℚ) * targetRatio)
      let keep : Int := if keep0 ≤ 0 then 1 else keep0
      if (tokens.length : Int) ≤ keep then text
      else goJoin " " (tokens.take keep.toNat)

/-! ## Theorems -/

/-- Claim C3, counterexample: `Normalize` replaces `top_k` only when it is
exactly 0, so a profile with a negative `top_k` keeps it and the normalized
`top_k` is not ≥ 1, contradicting the claim for negative inputs. -/
theorem c3_negative_topk_counterexample :
    (Normalize { topK := -1 }).topK = -1 ∧ ¬(1 ≤ (Normalize { topK := -1 }).topK) := by
  decide

/-- **C3** (amended): for every profile whose `top_k` is non-negative,
`Normalize` returns `top_k ≥ 1` and a non-empty retrievers list, and it
fills the defaults `top_k = 10`, `threshold = 0.5`, `retrievers = ["vector"]`
and `per_retriever_top_k = top_k` exactly when those fields are unset
(zero/empty). -/
theorem c3_normalize_defaults (prof : RetrievalProfile) (h : 0 ≤ prof.topK) :
    1 ≤ (Normalize prof).topK ∧ (Normalize prof).retrievers ≠ [] ∧
    (prof.topK = 0 → (Normalize prof).topK = 10) ∧
    (prof.threshold = 0 → (Normalize prof).threshold = 1/2) ∧
    (prof.retrievers = [] → (Normalize prof).retrievers = ["vector"]) ∧
    (prof.perRetrieverTopK = 0 →
      (Normalize prof).perRetrieverTopK = (Normalize prof).topK) := by
  simp only [Normalize]
  split_ifs <;> simp_all <;> omega

/-- Witness for `c3_normalize_defaults` at the all-defaults profile. -/
theorem c3_normalize_defaults_witness :
    1 ≤ (Normalize {}).topK ∧ (Normalize {}).retrievers ≠ [] ∧
    (({} : RetrievalProfile).topK = 0 → (Normalize {}).topK = 10) ∧
    (({} : RetrievalProfile).threshold = 0 → (Normalize {}).threshold = 1/2) ∧
    (({} : RetrievalProfile).retrievers = [] → (Normalize {}).retrievers = ["vector"]) ∧
    (({} : RetrievalProfile).perRetrieverTopK = 0 →
      (Normalize {}).perRetrieverTopK = (Normalize {}).topK) :=
  c3_normalize_defaults {} (by decide)

/-- Claim C2, counterexample: with the S5 options, after ONE completed `Do`
call (all attempts failing) the failure counter is 1 < 3, so a second call
issued 10ms later does attempt I/O instead of returning the circuit-open
error as the claim asserts. -/
theorem c2_one_call_counterexample :
    (httpxDoAllFail s5Options ⟨0, 0⟩ 0 5000000).2 = ⟨1, 0⟩ ∧
    (httpxDoAllFail s5Options ⟨1, 0⟩ 10000000 15000000).1 = DoOutcome.attempted ∧
    DoOutcome.attempted ≠ DoOutcome.circuitOpen := by
  decide

/-- **C2** (amended): with the S5 options against an always-500 upstream, the
failure counter advances by one per completed `Do` call; the circuit opens on
the THIRD failing call, until one second past that call's end.  A fourth call
starting within that second returns the circuit-open error without attempting
I/O and leaves the state unchanged; a call starting at or after the deadline
attempts I/O again. -/
theorem c2_s5_circuit (t1 e1 t2 e2 t3 e3 t4 e4 t5 e5 : Int)
    (h1 : 0 ≤ t1) (h2 : 0 ≤ t2) (h3 : 0 ≤ t3)
    (h4 : t4 < e3 + 1000000000) (h5 : e3 + 1000000000 ≤ t5) :
    httpxDoAllFail s5Options ⟨0, 0⟩ t1 e1 = (.attempted, ⟨1, 0⟩) ∧
    httpxDoAllFail s5Options ⟨1, 0⟩ t2 e2 = (.attempted, ⟨2, 0⟩) ∧
    httpxDoAllFail s5Options ⟨2, 0⟩ t3 e3 = (.attempted, ⟨0, e3 + 1000000000⟩) ∧
    httpxDoAllFail s5Options ⟨0, e3 + 1000000000⟩ t4 e4 =
      (.circuitOpen, ⟨0, e3 + 1000000000⟩) ∧
    (httpxDoAllFail s5Options ⟨0, e3 + 1000000000⟩ t5 e5).1 = .attempted := by
  refine ⟨?_, ?_, ?_, ?_, ?_⟩ <;>
    simp only [httpxDoAllFail, s5Options] <;>
    split_ifs <;> simp_all <;> omega

/-- Witness for `c2_s5_circuit` with concrete call times. -/
theorem c2_s5_circuit_witness :
    httpxDoAllFail s5Options ⟨0, 0⟩ 0 1 = (.attempted, ⟨1, 0⟩) ∧
    httpxDoAllFail s5Options ⟨1, 0⟩ 2 3 = (.attempted, ⟨2, 0⟩) ∧
    httpxDoAllFail s5Options ⟨2, 0⟩ 4 5 = (.attempted, ⟨0, 5 + 1000000000⟩) ∧
    httpxDoAllFail s5Options ⟨0, 5 + 1000000000⟩ 6 7 =
      (.circuitOpen, ⟨0, 5 + 1000000000⟩) ∧
    (httpxDoAllFail s5Options ⟨0, 5 + 1000000000⟩ 1000000005 1000000006).1 =
      DoOutcome.attempted :=
  c2_s5_circuit 0 1 2 3 4 5 6 7 1000000005 1000000006
    (by decide) (by decide) (by decide) (by decide) (by decide)

/-- Claim C6: `GetTrend`'s backwards loop resets the consecutive counters on
a non-matching verdict but never breaks, so the returned counters describe
the run at the OLDEST end of the window.  For the history
`[incorrect (t=1), correct (t=2)]` with window 2 the code reports
`consecutive_incorrect = 1` and `consecutive_confident = 0`, while the run at
the most recent end (broken at the first different verdict, as the claim and
spec describe) is 0 incorrect and 1 confident. -/
theorem c6_consecutive_run_divergence :
    (getTrend { history := [("k", [⟨1, verdictIncorrect, 0⟩, ⟨2, verdictCorrect, 0⟩])] }
        "k" 2).consecutiveIncorrect = 1 ∧
    (getTrend { history := [("k", [⟨1, verdictIncorrect, 0⟩, ⟨2, verdictCorrect, 0⟩])] }
        "k" 2).consecutiveConfident = 0 ∧
    claimedConsecutive verdictIncorrect 2 [⟨1, verdictIncorrect, 0⟩, ⟨2, verdictCorrect, 0⟩] = 0 ∧
    claimedConsecutive verdictCorrect 2 [⟨1, verdictIncorrect, 0⟩, ⟨2, verdictCorrect, 0⟩] = 1 := by
  decide

/-- **C9**: applying a gating decision with `should_suppress_web` (and the
force flag clear, which `Evaluate` guarantees, on a provider without a wired
feedback manager) sets `use_web` to false and filters the retriever list by
case-insensitive `"web"` substring, so no remaining key contains `"web"` —
e.g. `"web:bing"` and `"websearch"` are removed, not just the exact key. -/
theorem c9_suppress_removes_web (d : Decision) (prof : RetrievalProfile) (now : Int)
    (hs : d.shouldSuppressWeb = true) (hf : d.shouldForceWeb = false) :
    (gateApplyDecision none now d prof).useWeb = false ∧
    (gateApplyDecision none now d prof).retrievers =
      filterRetrievers prof.retrievers "web" ∧
    ∀ r ∈ (gateApplyDecision none now d prof).retrievers,
      goContains (toLowerStr r) "web" = false := by
  have hlow : toLowerStr "web" = "web" := by decide
  simp only [gateApplyDecision, applyFeedbackAdjustments, hs, hf, if_true, if_false,
    Bool.false_eq_true, ite_false, ite_true]
  refine ⟨trivial, trivial, ?_⟩
  intro r hr
  have hmem := List.mem_filter.mp hr
  have := hmem.2
  rw [hlow] at this
  simpa using this

/-- Witness for `c9_suppress_removes_web`: `"web:bing"` and `"websearch"`
are both removed. -/
theorem c9_suppress_removes_web_witness :
    (gateApplyDecision none 0 { shouldSuppressWeb := true }
      { retrievers := ["vector", "web:bing", "websearch"] }).useWeb = false ∧
    (gateApplyDecision none 0 { shouldSuppressWeb := true }
      { retrievers := ["vector", "web:bing", "websearch"] }).retrievers =
      filterRetrievers ["vector", "web:bing", "websearch"] "web" ∧
    ∀ r ∈ (gateApplyDecision none 0 { shouldSuppressWeb := true }
      { retrievers := ["vector", "web:bing", "websearch"] }).retrievers,
      goContains (toLowerStr r) "web" = false :=
  c9_suppress_removes_web { shouldSuppressWeb := true }
    { retrievers := ["vector", "web:bing", "websearch"] } 0 rfl rfl

/-- **C10**: truncate compression is the identity for every target ratio
outside `(0,1)`; and for ratios inside `(0,1)` it is likewise the identity
whenever the text has no tokens or the floor of `token_count * ratio` already
reaches the token count. -/
theorem c10_compress_identity (text : String) (r : ℚ) :
    ((r ≤ 0 ∨ 1 ≤ r) → CompressText text r = text) ∧
    (0 < r → r < 1 →
      (goFields text = [] ∨
        ((goFields text).length : ℤ) ≤ Int.floor (((goFields text).length : ℚ) * r)) →
      CompressText text r = text) := by
  constructor
  · intro h
    simp only [CompressText, if_pos h]
  · intro h0 h1 hc
    have hcond : ¬(r ≤ 0 ∨ 1 ≤ r) := by
      push_neg
      exact ⟨h0, h1⟩
    simp only [CompressText, if_neg hcond]
    rcases hc with he | hk
    · simp [he]
    · by_cases he : goFields text = []
      · simp [he]
      · simp only [if_neg he]
        have hpos : (0 : ℤ) < (goFields text).length := by
          have : goFields text ≠ [] := he
          have := List.length_pos.mpr this
          omega
        have hk2 : ¬(Int.floor (((goFields text).length : ℚ) * r) ≤ 0) := by omega
        rw [if_neg hk2, if_pos (by omega)]

/-- Witness for `c10_compress_identity` at ratio 2 (≥ 1). -/
theorem c10_compress_identity_witness : CompressText "alpha beta" 2 = "alpha beta" :=
  (c10_compress_identity "alpha beta" 2).1 (Or.inr (by norm_num))

/-! ### Association-list lemmas for the fusion accumulation loops -/

/-- Looking up after modifying the value stored at `key` in place. -/
theorem lookup_map_modify {β : Type} (m : List (String × β)) (key : String) (g : β → β)
    (id : String) :
    List.lookup id (m.map (fun kv => if kv.1 = key then (kv.1, g kv.2) else kv)) =
      if id = key then (List.lookup id m).map g else List.lookup id m := by
  induction m with
  | nil => simp
  | cons kv rest ih =>
    obtain ⟨k0, v0⟩ := kv
    by_cases hk : k0 = key
    · subst hk
      by_cases hid : id = k0
      · subst hid
        simp [List.lookup_cons]
      · have hb : (id == k0) = false := by simp [hid]
        simp [List.lookup_cons, hb, hid, ih]
    · by_cases hid : id = k0
      · subst hid
        simp [List.lookup_cons, hk, ih]
      · have hb : (id == k0) = false := by simp [hid]
        simp [List.lookup_cons, hk, hb, ih]

/-- Modifying a value in place preserves the key list. -/
theorem keys_map_modify {β : Type} (m : List (String × β)) (key : String) (g : β → β) :
    (m.map (fun kv => if kv.1 = key then (kv.1, g kv.2) else kv)).map Prod.fst =
      m.map Prod.fst := by
  induction m with
  | nil => simp
  | cons kv rest ih =>
    by_cases hk : kv.1 = key <;> simp_all

/-- A failed lookup means the key is absent. -/
theorem lookup_none_iff_not_mem {β : Type} (m : List (String × β)) (id : String) :
    List.lookup id m = none ↔ id ∉ m.map Prod.fst := by
  induction m with
  | nil => simp
  | cons kv rest ih =>
    by_cases h : id = kv.1 <;> simp_all [List.lookup_cons, beq_iff_eq]

/-- With duplicate-free keys, membership determines the lookup result. -/
theorem lookup_of_mem_nodup {β : Type} (m : List (String × β))
    (hnd : (m.map Prod.fst).Nodup) (kv : String × β) (hm : kv ∈ m) :
    List.lookup kv.1 m = some kv.2 := by
  induction m with
  | nil => simp at hm
  | cons hd rest ih =>
    obtain ⟨k0, v0⟩ := hd
    rcases List.mem_cons.mp hm with h | h
    · subst h
      simp [List.lookup_cons]
    · have hne : kv.1 ≠ k0 := by
        intro he
        have hmem : kv.1 ∈ rest.map Prod.fst := List.mem_map_of_mem Prod.fst h
        rw [he] at hmem
        exact (List.nodup_cons.mp hnd).1 hmem
      have hb : (kv.1 == k0) = false := beq_eq_false_iff_ne.mpr hne
      rw [List.lookup_cons, hb]
      exact ih (List.nodup_cons.mp hnd).2 h

/-- Processing the contribution stream from an accumulator that already holds
`id`: the stored score accumulates the stream's contributions for `id` and
the count their number. -/
theorem agg_foldl_some (steps : List Contribution) (m : List (String × Agg))
    (id : String) (hid : id ≠ "") (a : Agg) (ha : List.lookup id m = some a) :
    List.lookup id
        (steps.foldl (fun acc c => if c.id = "" then acc else aggInsert acc c) m) =
      some ⟨a.doc, a.score + (contribVals steps id).sum,
        a.count + (contribVals steps id).length⟩ := by
  induction steps generalizing m a with
  | nil =>
    simpa [contribVals] using ha
  | cons c rest ih =>
    simp only [List.foldl_cons]
    by_cases hc : c.id = ""
    · have hcid : ¬(c.id = id) := fun h => hid (h ▸ hc)
      rw [if_pos hc, ih m a ha]
      simp [contribVals, hcid]
    · rw [if_neg hc]
      by_cases heq : c.id = id
      · have hsome : (List.lookup c.id m).isSome := by
          rw [heq, ha]
          rfl
        have hlk : List.lookup id (aggInsert m c) =
            some ⟨a.doc, a.score + c.val, a.count + 1⟩ := by
          unfold aggInsert
          rw [if_pos hsome,
            lookup_map_modify m c.id (fun v => ⟨v.doc, v.score + c.val, v.count + 1⟩) id,
            if_pos heq.symm, ha]
          rfl
        rw [ih (aggInsert m c) _ hlk]
        simp [contribVals, heq, add_assoc]
        omega
      · have hlk : List.lookup id (aggInsert m c) = List.lookup id m := by
          unfold aggInsert
          by_cases hsome : (List.lookup c.id m).isSome
          · rw [if_pos hsome,
              lookup_map_modify m c.id (fun v => ⟨v.doc, v.score + c.val, v.count + 1⟩) id,
              if_neg (Ne.symm heq)]
          · rw [if_neg hsome, List.lookup_append, ha]
            rfl
        rw [ih (aggInsert m c) a (hlk.trans ha)]
        simp [contribVals, heq]

/-- Processing the contribution stream from an accumulator that does not hold
`id`: the result holds `id` exactly when the stream contributes to it, with
the first contribution's document, the contribution sum and the contribution
count. -/
theorem agg_foldl_none (steps : List Contribution) (m : List (String × Agg))
    (id : String) (hid : id ≠ "") (ha : List.lookup id m = none) :
    List.lookup id
        (steps.foldl (fun acc c => if c.id = "" then acc else aggInsert acc c) m) =
      match steps.filter (fun c => c.id = id) with
      | [] => none
      | c0 :: _ => some ⟨c0.doc, (contribVals steps id).sum, (contribVals steps id).length⟩ := by
  induction steps generalizing m with
  | nil =>
    simpa using ha
  | cons c rest ih =>
    simp only [List.foldl_cons]
    by_cases hc : c.id = ""
    · have hcid : ¬(c.id = id) := fun h => hid (h ▸ hc)
      rw [if_pos hc, ih m ha]
      simp [contribVals, hcid]
    · rw [if_neg hc]
      by_cases heq : c.id = id
      · have hnone : ¬(List.lookup c.id m).isSome := by
          rw [heq, ha]
          simp
        have hlk : List.lookup id (aggInsert m c) = some ⟨c.doc, c.val, 1⟩ := by
          unfold aggInsert
          rw [if_neg hnone, List.lookup_append, ha, heq]
          simp [List.lookup_cons]
        rw [agg_foldl_some rest (aggInsert m c) id hid _ hlk]
        simp [contribVals, heq, List.filter_cons]
        omega
      · have hlk : List.lookup id (aggInsert m c) = none := by
          unfold aggInsert
          by_cases hsome : (List.lookup c.id m).isSome
          · rw [if_pos hsome,
              lookup_map_modify m c.id (fun v => ⟨v.doc, v.score + c.val, v.count + 1⟩) id,
              if_neg (fun h => heq (h.symm)), ha]
          · have hb : (id == c.id) = false := beq_eq_false_iff_ne.mpr (Ne.symm heq)
            rw [if_neg hsome, List.lookup_append, ha]
            simp [List.lookup_cons, hb]
        rw [ih (aggInsert m c) hlk]
        simp [contribVals, heq]

/-- The accumulation loop preserves duplicate-freedom of the stored keys. -/
theorem agg_foldl_keys_nodup (steps : List Contribution) (m : List (String × Agg))
    (h : (m.map Prod.fst).Nodup) :
    ((steps.foldl (fun acc c => if c.id = "" then acc else aggInsert acc c) m).map
      Prod.fst).Nodup := by
  induction steps generalizing m with
  | nil => exact h
  | cons c rest ih =>
    simp only [List.foldl_cons]
    by_cases hc : c.id = ""
    · rw [if_pos hc]
      exact ih m h
    · rw [if_neg hc]
      apply ih
      unfold aggInsert
      by_cases hsome : (List.lookup c.id m).isSome
      · rw [if_pos hsome,
          keys_map_modify m c.id (fun v => ⟨v.doc, v.score + c.val, v.count + 1⟩)]
        exact h
      · rw [if_neg hsome]
        have hnm : c.id ∉ m.map Prod.fst := by
          rw [← lookup_none_iff_not_mem]
          exact Option.not_isSome_iff_eq_none.mp hsome
        have hperm : ((m ++ [(c.id, (⟨c.doc, c.val, 1⟩ : Agg))]).map Prod.fst).Perm
            (c.id :: m.map Prod.fst) := by
          rw [List.map_append]
          exact List.perm_append_singleton _ _
        exact ((List.nodup_cons.mpr ⟨hnm, h⟩).perm hperm.symm)

/-- The accumulation loop stores no empty key. -/
theorem agg_foldl_keys_ne (steps : List Contribution) (m : List (String × Agg))
    (h : ∀ k ∈ m.map Prod.fst, k ≠ "") :
    ∀ k ∈ (steps.foldl (fun acc c => if c.id = "" then acc else aggInsert acc c) m).map
      Prod.fst, k ≠ "" := by
  induction steps generalizing m with
  | nil => exact h
  | cons c rest ih =>
    simp only [List.foldl_cons]
    by_cases hc : c.id = ""
    · rw [if_pos hc]
      exact ih m h
    · rw [if_neg hc]
      apply ih
      unfold aggInsert
      by_cases hsome : (List.lookup c.id m).isSome
      · rw [if_pos hsome,
          keys_map_modify m c.id (fun v => ⟨v.doc, v.score + c.val, v.count + 1⟩)]
        exact h
      · rw [if_neg hsome, List.map_append]
        intro k hk
        rcases List.mem_append.mp hk with hk | hk
        · exact h k hk
        · simp only [List.map_cons, List.map_nil, List.mem_singleton] at hk
          exact hk ▸ hc

/-- Every stored entry's document id equals its key, provided every
contribution carries a document whose id is the contribution id. -/
theorem agg_foldl_docid (steps : List Contribution) (m : List (String × Agg))
    (hs : ∀ c ∈ steps, c.doc.id = c.id) (hm : ∀ kv ∈ m, kv.2.doc.id = kv.1) :
    ∀ kv ∈ steps.foldl (fun acc c => if c.id = "" then acc else aggInsert acc c) m,
      kv.2.doc.id = kv.1 := by
  induction steps generalizing m with
  | nil => exact hm
  | cons c rest ih =>
    simp only [List.foldl_cons]
    have hstail : ∀ c' ∈ rest, c'.doc.id = c'.id := fun c' hc' => hs c' (List.mem_cons_of_mem c hc')
    by_cases hc : c.id = ""
    · rw [if_pos hc]
      exact ih m hstail hm
    · rw [if_neg hc]
      apply ih _ hstail
      unfold aggInsert
      by_cases hsome : (List.lookup c.id m).isSome
      · rw [if_pos hsome]
        intro kv hkv
        obtain ⟨kv0, hkv0, rfl⟩ := List.mem_map.mp hkv
        by_cases hkey : kv0.1 = c.id
        · rw [if_pos hkey]
          exact hm kv0 hkv0
        · rw [if_neg hkey]
          exact hm kv0 hkv0
      · rw [if_neg hsome]
        intro kv hkv
        rcases List.mem_append.mp hkv with hkv | hkv
        · exact hm kv hkv
        · rw [List.mem_singleton.mp hkv]
          exact hs c (List.mem_cons_self c rest)

/-- The RRF contribution stream carries each item's own document. -/
theorem rrfSteps_docid (lists : List (List SearchResult)) (k : Int) :
    ∀ c ∈ rrfSteps lists k, c.doc.id = c.id := by
  intro c hc
  simp only [rrfSteps, List.mem_flatMap] at hc
  obtain ⟨l, _, hc⟩ := hc
  obtain ⟨p, _, rfl⟩ := List.mem_map.mp hc
  rfl

/-- The weighted contribution stream stamps metadata but keeps each
document's id. -/
theorem weightedSteps_docid (w : List (String × ℚ)) (inputs : List RetrieverResult) :
    ∀ c ∈ weightedSteps w inputs, c.doc.id = c.id := by
  intro c hc
  simp only [weightedSteps, List.mem_flatMap] at hc
  obtain ⟨p, _, hc⟩ := hc
  by_cases he : p.2.results = []
  · rw [if_pos he] at hc
    simp at hc
  · rw [if_neg he] at hc
    obtain ⟨item, _, rfl⟩ := List.mem_map.mp hc
    rfl

/-- The linear contribution stream stamps metadata but keeps each
document's id. -/
theorem linearSteps_docid (w : List ℚ) (inputs : List RetrieverResult) :
    ∀ c ∈ linearSteps w inputs, c.doc.id = c.id := by
  intro c hc
  simp only [linearSteps, List.mem_flatMap] at hc
  obtain ⟨p, _, hc⟩ := hc
  by_cases he : p.2.results = []
  · rw [if_pos he] at hc
    simp at hc
  · rw [if_neg he] at hc
    obtain ⟨item, _, rfl⟩ := List.mem_map.mp hc
    rfl

/-- Entry lists built from an aggregation have duplicate-free, non-empty
document ids. -/
theorem agg_entries_ids (steps : List Contribution) (f : Agg → ℚ)
    (hs : ∀ c ∈ steps, c.doc.id = c.id) :
    (((aggregate steps).map (fun kv => SearchResult.mk kv.2.doc (f kv.2))).map
        (fun rr => rr.document.id)).Nodup ∧
    ∀ rr ∈ (aggregate steps).map (fun kv => SearchResult.mk kv.2.doc (f kv.2)),
      rr.document.id ≠ "" := by
  have hnd := agg_foldl_keys_nodup steps [] (by simp)
  have hne := agg_foldl_keys_ne steps [] (by simp)
  have hdoc := agg_foldl_docid steps [] hs (by simp)
  constructor
  · rw [List.map_map]
    have heq : ((aggregate steps).map
        ((fun rr => rr.document.id) ∘ (fun kv => SearchResult.mk kv.2.doc (f kv.2)))) =
        (aggregate steps).map Prod.fst :=
      List.map_congr_left (fun kv hkv => hdoc kv hkv)
    rw [heq]
    exact hnd
  · intro rr hrr
    obtain ⟨kv, hkv, rfl⟩ := List.mem_map.mp hrr
    have : kv.2.doc.id = kv.1 := hdoc kv hkv
    simp only [this]
    exact hne kv.1 (List.mem_map_of_mem Prod.fst hkv)

/-- Every fusion strategy's aggregated entry list has duplicate-free,
non-empty document ids. -/
theorem fusedEntries_ids (kind : FusionKind) (inputs : List RetrieverResult) :
    ((fusedEntries kind inputs).map (fun rr => rr.document.id)).Nodup ∧
    ∀ rr ∈ fusedEntries kind inputs, rr.document.id ≠ "" := by
  induction kind generalizing inputs with
  | rrf cfgK paramK =>
    simp only [fusedEntries, rrfFuseEntries, rrfScoreEntries]
    exact agg_entries_ids _ Agg.score (rrfSteps_docid _ _)
  | weighted w =>
    simp only [fusedEntries, weightedFuseEntries]
    exact agg_entries_ids _ (fun a => if 0 < a.count then a.score / (a.count : ℚ) else a.score)
      (weightedSteps_docid _ _)
  | linear w =>
    simp only [fusedEntries, linearFuseEntries]
    exact agg_entries_ids _ Agg.score (linearSteps_docid _ _)
  | dist base ih =>
    simp only [fusedEntries]
    exact ih (distNormalize inputs)

/-- Reading the decimal digits back from a rendered natural number. -/
theorem natDec_charDigits (n : Nat) :
    (natDec n).data.map charDigit = if n = 0 then [0] else (Nat.digits 10 n).reverse := by
  by_cases h : n = 0
  · subst h
    decide
  · simp only [natDec, if_neg h]
    show ((Nat.digits 10 n).reverse.map digitChar).map charDigit = (Nat.digits 10 n).reverse
    rw [List.map_map]
    have hmem : ∀ d ∈ (Nat.digits 10 n).reverse, (charDigit ∘ digitChar) d = d := by
      intro d hd
      have hlt : d < 10 := Nat.digits_lt_base (by norm_num) (List.mem_reverse.mp hd)
      show charDigit (digitChar d) = d
      interval_cases d <;> decide
    rw [List.map_congr_left hmem]
    simp

/-- Decimal rendering of naturals is injective. -/
theorem natDec_inj (a b : Nat) (h : natDec a = natDec b) : a = b := by
  have ha := natDec_charDigits a
  have hb := natDec_charDigits b
  rw [h, hb] at ha
  by_cases h0 : a = 0 <;> by_cases h1 : b = 0
  · rw [h0, h1]
  · rw [if_neg h1, if_pos h0] at ha
    exfalso
    have hdig : Nat.digits 10 b = [0] := by
      have h2 := congrArg List.reverse ha
      simpa using h2
    have hb0 : b = 0 := by
      have h3 := Nat.ofDigits_digits 10 b
      rw [hdig] at h3
      simpa [Nat.ofDigits] using h3.symm
    exact h1 hb0
  · rw [if_pos h1, if_neg h0] at ha
    exfalso
    have hdig : Nat.digits 10 a = [0] := by
      have h2 := congrArg List.reverse ha.symm
      simpa using h2
    have ha0 : a = 0 := by
      have h3 := Nat.ofDigits_digits 10 a
      rw [hdig] at h3
      simpa [Nat.ofDigits] using h3.symm
    exact h0 ha0
  · rw [if_neg h1, if_neg h0] at ha
    have hd : Nat.digits 10 a = Nat.digits 10 b := by
      have h2 := congrArg List.reverse ha
      simpa using h2.symm
    calc a = Nat.ofDigits 10 (Nat.digits 10 a) := (Nat.ofDigits_digits 10 a).symm
    _ = Nat.ofDigits 10 (Nat.digits 10 b) := by rw [hd]
    _ = b := Nat.ofDigits_digits 10 b

/-- Decimal rendering of non-negative Go ints is injective. -/
theorem intDec_nonneg_inj (a b : Int) (ha : 0 ≤ a) (hb : 0 ≤ b) (h : intDec a = intDec b) :
    a = b := by
  simp only [intDec, if_neg (not_lt.mpr ha), if_neg (not_lt.mpr hb)] at h
  have := natDec_inj _ _ h
  omega

/-- Cancellation of a shared prefix and suffix of string concatenations. -/
theorem string_append_cancel (A B x y : String) (h : A ++ x ++ B = A ++ y ++ B) : x = y := by
  apply String.ext
  have hd := congrArg String.data h
  simp only [String.data_append] at hd
  exact List.append_cancel_left (List.append_cancel_right hd)

/-- **C8**: (1) the cache-key preimage normalizes the query by trimming and
lowercasing, so `"Hello"` and `"  hello "` produce the same preimage (and,
the key being the SHA-1 of the preimage, the same cache key) under any fixed
client and profile; (2) two clients identical except for the configured
(non-negative) `rerank.top_n` produce different preimage strings. -/
theorem c8_cache_key_preimage :
    (∀ (r : RAGClientModel) (prof : RetrievalProfile),
      buildCacheKeyBase r "Hello" prof = buildCacheKeyBase r "  hello " prof) ∧
    (∀ (iv cv q : String) (prof : RetrievalProfile) (emb : EmbeddingConfig)
        (vdb : VectorDBConfig) (ragS : RAGSection) (pl : PipelineConfig)
        (po : PostConfig) (n1 n2 : Int), 0 ≤ n1 → 0 ≤ n2 → n1 ≠ n2 →
      buildCacheKeyBase
          ⟨iv, cv, ⟨emb, vdb, ragS,
            some { pl with post := some { po with rerank := { po.rerank with topN := n1 } } }⟩⟩
          q prof ≠
        buildCacheKeyBase
          ⟨iv, cv, ⟨emb, vdb, ragS,
            some { pl with post := some { po with rerank := { po.rerank with topN := n2 } } }⟩⟩
          q prof) := by
  constructor
  · intro r prof
    have hq : toLowerStr (trimSpace "Hello") = toLowerStr (trimSpace "  hello ") := by decide
    simp only [buildCacheKeyBase, hq]
  · intro iv cv q prof emb vdb ragS pl po n1 n2 hn1 hn2 hne h
    apply hne
    have hr1 : rerankTopN ⟨emb, vdb, ragS,
        some { pl with post := some { po with rerank := { po.rerank with topN := n1 } } }⟩ =
        n1 := by
      simp only [rerankTopN]
      split_ifs with hp
      · rfl
      · omega
    have hr2 : rerankTopN ⟨emb, vdb, ragS,
        some { pl with post := some { po with rerank := { po.rerank with topN := n2 } } }⟩ =
        n2 := by
      simp only [rerankTopN]
      split_ifs with hp
      · rfl
      · omega
    simp only [buildCacheKeyBase, hr1, hr2] at h
    have hd := congrArg String.data h
    simp only [String.data_append, List.append_assoc] at hd
    have h1 := List.append_cancel_left hd
    have h2 := List.append_cancel_left h1
    have h3 := List.append_cancel_left h2
    have h4 := List.append_cancel_left h3
    have h5 := List.append_cancel_left h4
    have h6 := List.append_cancel_left h5
    have h7 := List.append_cancel_left h6
    have h8 := List.append_cancel_left h7
    have h9 := List.append_cancel_right h8
    exact intDec_nonneg_inj n1 n2 hn1 hn2 (String.ext h9)

/-- Witness for `c8_cache_key_preimage` at a concrete client, profile and
top-n pair 1 versus 2. -/
theorem c8_cache_key_preimage_witness :
    buildCacheKeyBase ⟨"v1", "w1", {}⟩ "Hello" { name := "p" } =
      buildCacheKeyBase ⟨"v1", "w1", {}⟩ "  hello " { name := "p" } ∧
    buildCacheKeyBase
        ⟨"v1", "w1", ⟨{}, {}, {},
          some { ({} : PipelineConfig) with
            post := some { ({} : PostConfig) with
              rerank := { (({} : PostConfig)).rerank with topN := 1 } } }⟩⟩
        "q" { name := "p" } ≠
      buildCacheKeyBase
        ⟨"v1", "w1", ⟨{}, {}, {},
          some { ({} : PipelineConfig) with
            post := some { ({} : PostConfig) with
              rerank := { (({} : PostConfig)).rerank with topN := 2 } } }⟩⟩
        "q" { name := "p" } :=
  ⟨c8_cache_key_preimage.1 ⟨"v1", "w1", {}⟩ { name := "p" },
    c8_cache_key_preimage.2 "v1" "w1" "q" { name := "p" } {} {} {} {} {} 1 2
      (by decide) (by decide) (by decide)⟩

/-- A profile passing the per-profile field checks produces no validation
error. -/
theorem validateProfile_ok (i : Nat) (p : RetrievalProfile) (hname : p.name ≠ "")
    (h1 : 0 ≤ p.topK) (h2 : 0 ≤ p.threshold) (h3 : p.threshold ≤ 1)
    (h4 : 0 ≤ p.vectorGate) (h5 : p.vectorGate ≤ 1)
    (h6 : 0 ≤ p.vectorLowGate) (h7 : p.vectorLowGate ≤ 1)
    (h8 : ¬(0 < p.vectorGate ∧ 0 < p.vectorLowGate ∧ p.vectorGate ≤ p.vectorLowGate)) :
    validateProfile i p = [] := by
  simp only [validateProfile]
  rw [if_neg hname, if_neg (by omega),
    if_neg (by push_neg; exact ⟨h2, h3⟩),
    if_neg (by push_neg; exact ⟨h4, h5⟩),
    if_neg (by push_neg; exact ⟨h6, h7⟩),
    if_neg h8]
  simp

/-- Claim C7, counterexample: a configuration whose pipeline holds TWO
profiles with the same name `"a"` (and otherwise valid fields) passes
`Validate` with no error: there is no duplicate-name check anywhere in the
validation code. -/
theorem c7_duplicate_names_counterexample :
    configValidate
      { embedding := ⟨"openai", "m", 256⟩, vectordb := ⟨"chroma", "h", "c", ""⟩,
        rag := ⟨10, 1⟩,
        pipeline := some ⟨0, [{ name := "a", topK := 10, threshold := 1 },
          { name := "a", topK := 10, threshold := 1 }], none, none, false, []⟩ } = none ∧
    (({ name := "a", topK := 10, threshold := 1 } : RetrievalProfile).name =
      ({ name := "a", topK := 10, threshold := 1 } : RetrievalProfile).name) := by
  decide

/-- **C7** (amended): configuration validation does NOT reject duplicate
profile names: any pipeline built from two copies of one field-valid profile
(same name twice) validates without error, alongside valid embedding,
vector-db and RAG sections. -/
theorem c7_duplicate_names_accepted (p : RetrievalProfile) (hname : p.name ≠ "")
    (h1 : 0 ≤ p.topK) (h2 : 0 ≤ p.threshold) (h3 : p.threshold ≤ 1)
    (h4 : 0 ≤ p.vectorGate) (h5 : p.vectorGate ≤ 1)
    (h6 : 0 ≤ p.vectorLowGate) (h7 : p.vectorLowGate ≤ 1)
    (h8 : ¬(0 < p.vectorGate ∧ 0 < p.vectorLowGate ∧ p.vectorGate ≤ p.vectorLowGate)) :
    configValidate
      { embedding := ⟨"openai", "m", 256⟩, vectordb := ⟨"chroma", "h", "c", ""⟩,
        rag := ⟨10, 1⟩, pipeline := some ⟨0, [p, p], none, none, false, []⟩ } = none := by
  have hv0 := validateProfile_ok 0 p hname h1 h2 h3 h4 h5 h6 h7 h8
  have hv1 := validateProfile_ok 1 p hname h1 h2 h3 h4 h5 h6 h7 h8
  have hop : ("openai" : String) ≠ "" := by decide
  have hmm : ("m" : String) ≠ "" := by decide
  have hch : toLowerStr "chroma" = "chroma" := by decide
  have hchne : ("chroma" : String) ≠ "" := by decide
  have hhh : ("h" : String) ≠ "" := by decide
  have hcc : ("c" : String) ≠ "" := by decide
  norm_num [configValidate, validateEmbedding, validateVectorDB, validateRAG,
    validatePipeline, List.enum, List.enumFrom, hv0, hv1, hop, hmm, hch, hchne, hhh, hcc]

/-- Witness for `c7_duplicate_names_accepted` at a concrete profile. -/
theorem c7_duplicate_names_accepted_witness :
    configValidate
      { embedding := ⟨"openai", "m", 256⟩, vectordb := ⟨"chroma", "h", "c", ""⟩,
        rag := ⟨10, 1⟩,
        pipeline := some ⟨0, [{ name := "b", topK := 5 }, { name := "b", topK := 5 }],
          none, none, false, []⟩ } = none :=
  c7_duplicate_names_accepted { name := "b", topK := 5 } (by decide) (by decide) (by decide)
    (by decide) (by decide) (by decide) (by decide) (by decide) (by decide)

/-- The compound `retriever:provider` key is empty exactly when both parts
are empty. -/
theorem compoundKey_pair_eq_empty (r p : String) :
    compoundKey [r, p] = "" ↔ r = "" ∧ p = "" := by
  constructor
  · intro h
    by_cases hr : r = ""
    · by_cases hp : p = ""
      · exact ⟨hr, hp⟩
      · exfalso
        have hpb : (decide ¬(p = "")) = true := by simp [hp]
        have h0 : (decide ¬(("" : String) = "")) = false := by decide
        rw [compoundKey, hr] at h
        simp only [List.filter_cons, List.filter_nil, h0, hpb] at h
        exact hp h
    · exfalso
      have hrb : (decide ¬(r = "")) = true := by simp [hr]
      rw [compoundKey] at h
      simp only [List.filter_cons, hrb] at h
      by_cases hp : p = ""
      · have h0 : (decide ¬(("" : String) = "")) = false := by decide
        rw [hp] at h
        simp only [h0, List.filter_nil] at h
        exact hr h
      · have hpb : (decide ¬(p = "")) = true := by simp [hp]
        simp only [hpb, List.filter_nil, goJoin] at h
        have hd := congrArg String.data h
        simp only [String.data_append] at hd
        simp at hd
  · rintro ⟨hr, hp⟩
    subst hr
    subst hp
    decide

/-- Claim C5, counterexample: with weights `{"list_0": 2}` and a single
input whose retriever is `"vector"`, the source consults the compound-key
branch (the compound key `"vector"` is non-empty) and never falls back to
`list_0`, so the document keeps weight 1 and fused score 1; the claimed
lookup chain would find `list_0 = 2` and produce fused score 2. -/
theorem c5_lookup_order_counterexample :
    weightedFuseEntries [("list_0", 2)] [⟨"", "vector", "", [⟨⟨"d", "", []⟩, 1⟩]⟩] ≠
      claimedWeightedEntries [("list_0", 2)] [⟨"", "vector", "", [⟨⟨"d", "", []⟩, 1⟩]⟩] := by
  have hV : ("vector" : String) ≠ "" := by decide
  have hD : ("d" : String) ≠ "" := by decide
  have hVL : (("vector" : String) == "list_0") = false := by decide
  have hLL : (("list_0" : String) == "list_0") = true := by decide
  have hck : compoundKey ["vector", ""] = "vector" := by decide
  have hik : indexKey 0 = "list_0" := by decide
  norm_num [weightedFuseEntries, claimedWeightedEntries, weightedSteps, weightFor,
    claimedWeightFor, withRetrieverMeta, metaSet, aggregate, aggInsert, List.enum,
    List.enumFrom, List.lookup_cons, hV, hD, hVL, hLL, hck, hik]

/-- **C5** (amended): in weighted fusion each present document's fused score
is the mean of its contributions (each `item.Score * weight`, summed, then
divided by the contribution count), and the weight for an input is
`weights[retriever]` when present, otherwise `weights[retriever:provider]`
when present, defaulting to 1.0 — the `weights[list_i]` fallback is
consulted only when retriever and provider are BOTH empty, not as a third
step of the claimed chain. -/
theorem c5_weighted_mean_and_weight_rule (weights : List (String × ℚ))
    (inputs : List RetrieverResult) :
    (∀ rr ∈ weightedFuseEntries weights inputs,
      contribVals (weightedSteps weights inputs) rr.document.id ≠ [] ∧
      rr.score = (contribVals (weightedSteps weights inputs) rr.document.id).sum /
        ((contribVals (weightedSteps weights inputs) rr.document.id).length : ℚ)) ∧
    (∀ idx inp, weightFor weights idx inp =
      match List.lookup inp.retriever weights with
      | some w => w
      | none =>
        if inp.retriever = "" ∧ inp.provider = "" then
          match List.lookup (indexKey idx) weights with
          | some w => w
          | none => 1
        else
          match List.lookup (compoundKey [inp.retriever, inp.provider]) weights with
          | some w => w
          | none => 1) := by
  constructor
  · intro rr hrr
    obtain ⟨kv, hkv, rfl⟩ := List.mem_map.mp hrr
    have hnd := agg_foldl_keys_nodup (weightedSteps weights inputs) [] (by simp)
    have hne := agg_foldl_keys_ne (weightedSteps weights inputs) [] (by simp)
    have hdoc := agg_foldl_docid (weightedSteps weights inputs) []
      (weightedSteps_docid _ _) (by simp)
    have hid : kv.1 ≠ "" := hne kv.1 (List.mem_map_of_mem Prod.fst hkv)
    have hlk : List.lookup kv.1 (aggregate (weightedSteps weights inputs)) = some kv.2 :=
      lookup_of_mem_nodup _ hnd kv hkv
    have hchar := agg_foldl_none (weightedSteps weights inputs) [] kv.1 hid (by simp)
    unfold aggregate at hlk
    rw [hchar] at hlk
    have hdid : (SearchResult.mk kv.2.doc
        (if 0 < kv.2.count then kv.2.score / (kv.2.count : ℚ) else kv.2.score)).document.id =
        kv.1 := hdoc kv hkv
    rw [hdid]
    simp only [contribVals] at hlk ⊢
    cases hf : (weightedSteps weights inputs).filter (fun c => c.id = kv.1) with
    | nil =>
      rw [hf] at hlk
      exact absurd hlk (by simp)
    | cons c0 tail =>
      rw [hf] at hlk
      have hkv2 : kv.2 = ⟨c0.doc, ((c0 :: tail).map Contribution.val).sum,
          ((c0 :: tail).map Contribution.val).length⟩ := by
        injection hlk with h
        exact h.symm
      constructor
      · simp
      · rw [hkv2]
        simp

  · intro idx inp
    unfold weightFor
    cases hlk : List.lookup inp.retriever weights with
    | some w => simp [hlk]
    | none =>
      simp only [hlk]
      by_cases hre : inp.retriever = "" ∧ inp.provider = ""
      · have hck : compoundKey [inp.retriever, inp.provider] = "" := by
          rw [(compoundKey_pair_eq_empty inp.retriever inp.provider).mpr hre]
        rw [if_neg (by simp [hck]), if_pos hre]
      · have hck : ¬(compoundKey [inp.retriever, inp.provider] = "") := by
          intro h
          exact hre ((compoundKey_pair_eq_empty inp.retriever inp.provider).mp h)
        rw [if_pos hck, if_neg hre]

/-- Witness for `c5_weighted_mean_and_weight_rule` on a single input holding
one document with score 3 and default weight. -/
theorem c5_weighted_mean_and_weight_rule_witness :
    (∀ rr ∈ weightedFuseEntries [] [⟨"q", "vector", "", [⟨⟨"a", "", []⟩, 3⟩]⟩],
      contribVals (weightedSteps [] [⟨"q", "vector", "", [⟨⟨"a", "", []⟩, 3⟩]⟩])
        rr.document.id ≠ [] ∧
      rr.score = (contribVals (weightedSteps [] [⟨"q", "vector", "", [⟨⟨"a", "", []⟩, 3⟩]⟩])
          rr.document.id).sum /
        ((contribVals (weightedSteps [] [⟨"q", "vector", "", [⟨⟨"a", "", []⟩, 3⟩]⟩])
          rr.document.id).length : ℚ)) ∧
    (∀ idx inp, weightFor [] idx inp =
      match List.lookup inp.retriever ([] : List (String × ℚ)) with
      | some w => w
      | none =>
        if inp.retriever = "" ∧ inp.provider = "" then
          match List.lookup (indexKey idx) ([] : List (String × ℚ)) with
          | some w => w
          | none => 1
        else
          match List.lookup (compoundKey [inp.retriever, inp.provider])
              ([] : List (String × ℚ)) with
          | some w => w
          | none => 1) :=
  c5_weighted_mean_and_weight_rule [] [⟨"q", "vector", "", [⟨⟨"a", "", []⟩, 3⟩]⟩]

/-- Claim C1, counterexample: with two single-document inputs, RRF gives both
documents the same fused score `1/61`; the reversed order `[b, a]` is an
admissible output of `Fuse` (the entry slice is filled by randomized map
iteration and sorted unstably), yet it violates the claimed first-encounter
tie order, which would force `[a, b]`. -/
theorem c1_tie_order_counterexample :
    FuseAdmissible (.rrf 60 0)
      [⟨"q", "vector", "", [⟨⟨"a", "", []⟩, 1⟩]⟩, ⟨"q", "bm25", "", [⟨⟨"b", "", []⟩, 1⟩]⟩]
      [⟨⟨"b", "", []⟩, 1/61⟩, ⟨⟨"a", "", []⟩, 1/61⟩] ∧
    ¬ InsertionTieOrder
      (fusedEntries (.rrf 60 0)
        [⟨"q", "vector", "", [⟨⟨"a", "", []⟩, 1⟩]⟩, ⟨"q", "bm25", "", [⟨⟨"b", "", []⟩, 1⟩]⟩])
      [⟨⟨"b", "", []⟩, 1/61⟩, ⟨⟨"a", "", []⟩, 1/61⟩] := by
  have hentries : fusedEntries (.rrf 60 0)
      [⟨"q", "vector", "", [⟨⟨"a", "", []⟩, 1⟩]⟩, ⟨"q", "bm25", "", [⟨⟨"b", "", []⟩, 1⟩]⟩] =
      [⟨⟨"a", "", []⟩, 1/61⟩, ⟨⟨"b", "", []⟩, 1/61⟩] := by
    have hA : ("a" : String) ≠ "" := by decide
    have hB : ("b" : String) ≠ "" := by decide
    have hBA : ("b" : String) ≠ "a" := by decide
    have hAB : ("a" : String) ≠ "b" := by decide
    have hBAb : (("b" : String) == "a") = false := beq_eq_false_iff_ne.mpr hBA
    norm_num [fusedEntries, rrfFuseEntries, rrfScoreEntries, rrfSteps, rrfEffK, aggregate,
      aggInsert, List.enum, List.enumFrom, List.lookup_cons, hA, hB, hBA, hAB, hBAb]
  refine ⟨⟨?_, ?_⟩, ?_⟩
  · rw [hentries]
    exact List.Perm.swap _ _ _
  · simp only [SortedDesc, List.pairwise_cons]
    norm_num
  · intro h
    rw [hentries] at h
    simp only [InsertionTieOrder, List.pairwise_cons] at h
    have hpair := h.1 ⟨⟨"a", "", []⟩, 1/61⟩ (by simp)
    have hlt := hpair rfl
    simp only [List.map_cons, List.map_nil] at hlt
    exact absurd hlt (by decide)

/-- **C1** (amended): every admissible output of any fusion strategy (RRF,
weighted, linear, distribution) carries each non-empty document id at most
once, no empty id, and is sorted by fused score in decreasing order; the
relative order of equal-score entries is NOT fixed by the code (Go map
iteration order plus an unstable sort), so the insertion-order tie-breaking
of the original claim does not hold. -/
theorem c1_fusion_output (kind : FusionKind) (inputs : List RetrieverResult)
    (out : List SearchResult) (h : FuseAdmissible kind inputs out) :
    ((out.map (fun rr => rr.document.id)).Nodup ∧ ∀ rr ∈ out, rr.document.id ≠ "") ∧
    SortedDesc out := by
  obtain ⟨hperm, hsort⟩ := h
  have hids := fusedEntries_ids kind inputs
  refine ⟨⟨hids.1.perm (hperm.map (fun rr => rr.document.id)).symm, ?_⟩, hsort⟩
  intro rr hrr
  exact hids.2 rr (hperm.subset hrr)

/-- Witness for `c1_fusion_output`: the weighted strategy on a single
single-document input. -/
theorem c1_fusion_output_witness :
    (((fusedEntries (.weighted []) [⟨"q", "vector", "", [⟨⟨"a", "", []⟩, 3⟩]⟩]).map
        (fun rr => rr.document.id)).Nodup ∧
      ∀ rr ∈ fusedEntries (.weighted []) [⟨"q", "vector", "", [⟨⟨"a", "", []⟩, 3⟩]⟩],
        rr.document.id ≠ "") ∧
    SortedDesc (fusedEntries (.weighted []) [⟨"q", "vector", "", [⟨⟨"a", "", []⟩, 3⟩]⟩]) :=
  c1_fusion_output (.weighted []) [⟨"q", "vector", "", [⟨⟨"a", "", []⟩, 3⟩]⟩] _
    ⟨List.Perm.refl _, by
      have hA : ("a" : String) ≠ "" := by decide
      norm_num [fusedEntries, weightedFuseEntries, weightedSteps, weightFor, withRetrieverMeta,
        metaSet, aggregate, aggInsert, List.enum, List.enumFrom, SortedDesc, hA,
        List.pairwise_singleton]⟩

/-- Claim C4, counterexample: `Evaluate` always requests 5 preflight
documents, not `min(5, top_k)`.  With `top_k = 3` and a retriever that
errors when asked for 5 documents but succeeds when asked for 3, the code
returns `preflight_failed` while the claimed `min(5, top_k)` preflight would
succeed. -/
theorem c4_preflight_count_counterexample :
    (gateEvaluate
        (some (fun _ k => if k = 5 then .error () else .ok [⟨⟨"x", "", []⟩, 2⟩]))
        "q" { topK := 3, vectorGate := 1 }).reason = some .preflightFailed ∧
    (gateEvaluateClaim
        (some (fun _ k => if k = 5 then .error () else .ok [⟨⟨"x", "", []⟩, 2⟩]))
        "q" { topK := 3, vectorGate := 1 }).reason ≠ some .preflightFailed := by
  constructor
  · norm_num [gateEvaluate]
  · norm_num [gateEvaluateClaim, minInt, containsRetriever]
    decide

/-- **C4** (amended): with a vector retriever wired, the gating evaluation
depends on the retriever only through its answer to a request for exactly 5
documents (regardless of `top_k`), and whenever a gate is configured and
that preflight errors or returns no documents the decision's reason is
`preflight_failed`. -/
theorem c4_preflight_five (f g : SearchFn) (q : String) (prof : RetrievalProfile) :
    (f q 5 = g q 5 → gateEvaluate (some f) q prof = gateEvaluate (some g) q prof) ∧
    ((0 < prof.vectorGate ∨ 0 < prof.vectorLowGate) →
      (f q 5 = .error () ∨ f q 5 = .ok []) →
      (gateEvaluate (some f) q prof).reason = some .preflightFailed) := by
  constructor
  · intro h
    simp only [gateEvaluate, h]
  · intro hg hf
    have hcond : ¬(prof.vectorGate ≤ 0 ∧ prof.vectorLowGate ≤ 0) := by
      rintro ⟨ha, hb⟩
      rcases hg with h | h
      · linarith
      · linarith
    rcases hf with h | h <;> simp [gateEvaluate, if_neg hcond, h]

/-- Witness for `c4_preflight_five`: an erroring preflight with a positive
gate yields `preflight_failed`. -/
theorem c4_preflight_five_witness :
    (gateEvaluate (some (fun _ _ => Except.error ())) "q"
      { vectorGate := 1/2 }).reason = some .preflightFailed :=
  (c4_preflight_five (fun _ _ => Except.error ()) (fun _ _ => Except.error ()) "q"
    { vectorGate := 1/2 }).2 (Or.inl (by norm_num)) (Or.inl rfl)

end RagSpec
